import Mathlib

/-!
Shallow embedding of the multi-database SQL query tool
(`sql_validator.py`, `config_manager.py`, `main_app.py`,
`query_executor.py`, `sql_connector.py`).

Python strings are modelled as Lean `String`; where character-level
operations matter (lowercasing, substring search, stripping) we work on
`List Char`.  Wall-clock timestamps and durations do not influence any
verified property; they are omitted from the modelled message payloads.
-/

namespace Zanvar

/-! ## String primitives (Python `str.lower`, `in`, `str.strip`) -/

/-- Python `str.lower`, character-wise (ASCII-faithful). -/
def pyLower (s : String) : String :=
  String.mk (s.toList.map Char.toLower)

/-- `startsWithL hay needle`: `needle` is a prefix of `hay`. -/
def startsWithL : List Char → List Char → Bool
  | _, [] => true
  | [], _ :: _ => false
  | h :: hs, n :: ns => h == n && startsWithL hs ns

/-- `containsSub hay needle`: `needle` occurs as a contiguous substring of
`hay` (Python's `needle in hay`). -/
def containsSub : List Char → List Char → Bool
  | [], needle => needle.isEmpty
  | h :: t, needle => startsWithL (h :: t) needle || containsSub t needle

/-- Python `needle in hay` on strings. -/
def strContains (hay needle : String) : Bool :=
  containsSub hay.toList needle.toList

/-- The whitespace characters removed by Python's `str.strip()`. -/
def pyIsSpace (c : Char) : Bool :=
  c == ' ' || c == '\t' || c == '\n' || c == '\r' || c == '\x0b' || c == '\x0c'

/-- Python `str.strip()`: drop leading and trailing whitespace. -/
def pyStrip (s : String) : String :=
  String.mk (((s.toList.dropWhile pyIsSpace).reverse.dropWhile pyIsSpace).reverse)

/-! ## `sql_validator.py` -/

/-- The `destructive_keywords` list of `SQLValidator.contains_dangerous_sql`. -/
def destructiveKeywords : List String :=
  ["drop table", "drop database", "truncate table",
   "delete from", "alter table", "update "]

/-- `SQLValidator.contains_dangerous_sql`: lowercase the query and test
whether any destructive keyword occurs as a substring. -/
def containsDangerousSql (query : String) : Bool :=
  destructiveKeywords.any (fun keyword => strContains (pyLower query) keyword)

/-! ## `config_manager.py` -/

/-- `ConfigManager.MAX_HISTORY_ENTRIES`. -/
def MAX_HISTORY_ENTRIES : Nat := 50

/-- A history entry: `(datetime.now(), query)`; the timestamp is passed in
as an abstract `Nat`. -/
abbrev HistEntry := Nat × String

/-- `ConfigManager.add_to_history`: append `(now, query)`; if the history
then exceeds `MAX_HISTORY_ENTRIES`, `pop(0)` removes the oldest entry. -/
def addToHistory (history : List HistEntry) (now : Nat) (query : String) :
    List HistEntry :=
  if MAX_HISTORY_ENTRIES < (history ++ [(now, query)]).length then
    (history ++ [(now, query)]).drop 1
  else history ++ [(now, query)]

/-! ## `query_executor.py`: `_format_overall_summary` success rate -/

/-- The success-rate expression of `_format_overall_summary`
(`(successful_executions / total_executions * 100) if total_executions > 0
else 0`), with Python float arithmetic modelled exactly over `ℚ`. -/
def successRate (successful failed : Nat) : ℚ :=
  let total := successful + failed
  if 0 < total then (successful : ℚ) / (total : ℚ) * 100 else 0

/-- Python `f"{n:,}"`: insert a comma after every group of three digits,
counting from the right.  `k` is the number of digits emitted since the
last comma; the input is the reversed digit list. -/
def commaRev : List Char → Nat → List Char
  | [], _ => []
  | c :: cs, k => if k = 3 then ',' :: c :: commaRev cs 1 else c :: commaRev cs (k + 1)

/-- Python `f"{n:,}"` for a natural number. -/
def fmtComma (n : Nat) : String :=
  String.mk ((commaRev (toString n).toList.reverse 0).reverse)

/-! ## `main_app.py`: `start_query_thread` -/

/-- The slice of `App` state that `start_query_thread` can touch:
`self.query_running` and the config manager's history. -/
structure AppState where
  queryRunning : Bool
  history : List HistEntry
deriving DecidableEq

/-- `App.start_query_thread` as a state transformer.  Inputs that the
method reads from the UI or environment are passed explicitly:
`hasConnector` (`self.sql_connector` truthiness), the selected databases,
the query text, the answer the confirmation dialog would give
(`SQLValidator.confirm_dangerous_query`), and the current time.  The
`Bool` in the result records whether the executor thread was launched. -/
def startQueryThread (hasConnector : Bool) (selectedDbs : List String)
    (query : String) (confirmAnswer : Bool) (now : Nat) (st : AppState) :
    AppState × Bool :=
  if !hasConnector then (st, false)
  else if st.queryRunning then (st, false)
  else if selectedDbs.isEmpty then (st, false)
  else if query = "" then (st, false)
  else if containsDangerousSql query && !confirmAnswer then (st, false)
  else ({ queryRunning := true, history := addToHistory st.history now query }, true)

/-! ## `query_executor.py`: data model of `execute_query`

The database driver (`pyodbc`) is the external environment.  It is
modelled by an `Env`: for each database name, either the connection
attempt fails (`pyodbc.OperationalError` or another exception raised by
`SQLConnector.get_connection`), or it succeeds and each executed
statement (keyed by its 1-based position) produces an outcome.  A cell
value is `Option String` (`none` models SQL NULL). -/

abbrev Cell := Option String
abbrev Row := List Cell

/-- Outcome of `cursor.execute` for one statement. -/
inductive StmtOutcome where
  /-- `cursor.description` is set; `rows` are all rows fetched by the
  `fetchmany(1000)` loop. -/
  | resultSet (cols : List String) (rows : List Row)
  /-- `cursor.description` is `None`; `rowcount` is `cursor.rowcount`. -/
  | nonQuery (rowcount : Int)
  /-- `cursor.execute` raised `pyodbc.Error` (caught by the inner handler). -/
  | sqlError (msg : String)
  /-- `cursor.execute` raised a non-`pyodbc.Error` exception (escapes the
  inner handler, caught by the outer `except Exception`). -/
  | otherError (msg : String)

/-- Outcome of `SQLConnector.get_connection` for one database. -/
inductive ConnOutcome where
  | connOk (execF : Nat → StmtOutcome)
  /-- `pyodbc.OperationalError` raised while connecting. -/
  | connOpError (msg : String)
  /-- any other exception raised while connecting (e.g. the `ValueError`
  for a missing server configuration). -/
  | connOtherError (msg : String)

abbrev Env := String → ConnOutcome

/-- Observable driver-level events of one `execute_query` run. -/
inductive Ev where
  /-- a call of `self.sql_connector.get_connection(db)` -/
  | getConnCall (db : String)
  /-- `pyodbc.connect` succeeded inside `get_connection` -/
  | connOpen (db : String)
  /-- `cursor.execute(formatted_sql)` for statement number `stmtNum` -/
  | execStmt (db : String) (stmtNum : Nat) (sql : String)
  /-- `conn.commit()` -/
  | commit (db : String)
  /-- `conn.close()` in the `finally` block of `get_connection` -/
  | connClose (db : String)
deriving DecidableEq, Repr

/-- One entry of `db_results`: the data passed to
`_format_query_results` / `_format_error_result` for one statement. -/
inductive StmtResult where
  | ok (stmtNum : Nat) (cols : List String) (rows : List Row)
  | okNonQuery (stmtNum : Nat) (rowcount : Int)
  | err (stmtNum : Nat) (msg : String)

/-- One entry of `current_query_log['results']`. -/
structure LogEntry where
  db : String
  stmtNum : Nat
  success : Bool
  rowcount : Option Int
  error : Option String

/-- The data passed to `_format_database_summary`. -/
structure DbSummary where
  db : String
  successful : Nat
  failed : Nat
  totalRows : Nat
  totalStatements : Nat

/-- Payload of one `("result", ...)` message: the data each formatted
report string is built from. -/
inductive Block where
  /-- `_format_overall_summary` -/
  | overall (numDbs totalStatements successful failed totalRows : Nat)
      (dbs : List String)
  /-- `db_summary + "\n".flatten(db_results)` -/
  | dbCombined (summary : DbSummary) (results : List StmtResult)
  /-- `_format_connection_error` -/
  | connError (db : String) (msg : String)
  /-- `_format_unexpected_error` -/
  | unexpectedError (db : String) (msg : String)

/-- A message put on `message_queue`, tagged as in the source. -/
inductive Msg where
  | status (text : String)
  | rowCountMsg (text : String)
  | result (block : Block)
  | execTimeMsg
  | totalRowsMsg (text : String)
  | done (text : String)
  | queryLogMsg (entries : List LogEntry)
  | enableLogButton

/-- `True` for the progress tags emitted while a database is being
queried, before any part of the final report. -/
def Msg.isProgress : Msg → Bool
  | .status _ => true
  | .rowCountMsg _ => true
  | _ => false

/-! ## `execute_query`: statement splitting and the statement loop -/

/-- `statements = [stmt.strip() for stmt in sqlparse.split(query) if
stmt.strip()]`.  The library splitter `sqlparse.split` is the abstract
parameter `split`. -/
def statements (split : String → List String) (query : String) : List String :=
  (split query).filterMap fun stmt =>
    if pyStrip stmt = "" then none else some (pyStrip stmt)

/-- Mutable state of the `for i, statement in enumerate(statements, 1)`
loop for one database, together with the observable output it
accumulates. -/
structure StmtLoopState where
  /-- `db_results` -/
  results : List StmtResult
  /-- `db_successful_statements` (each increment also increments
  `successful_executions`) -/
  successful : Nat
  /-- `db_failed_statements` (each increment also increments
  `failed_executions`) -/
  failed : Nat
  /-- `db_total_rows` (each increment also adds to `total_rows`) -/
  rows : Nat
  /-- appended entries of `current_query_log['results']` -/
  log : List LogEntry
  /-- driver events so far -/
  trace : List Ev
  /-- `("row_count", ...)` messages put so far -/
  progress : List Msg
  /-- `some msg` once a non-`pyodbc.Error` exception aborted the loop -/
  aborted : Option String

/-- The statement loop body of `execute_query` (source lines 47–109) for
one connected database.  `i` is the 1-based statement number;
`fmt` is `sqlparse.format(·, reindent=True, keyword_case="upper")`.
Statements whose formatted text strips to empty are skipped
(`continue`); a `pyodbc.Error` is recorded and the loop continues; any
other exception stops the loop with `aborted` set. -/
def runStmts (fmt : String → String) (execF : Nat → StmtOutcome) (db : String) :
    Nat → List String → StmtLoopState → StmtLoopState
  | _, [], st => st
  | i, stmt :: rest, st =>
    let formatted := fmt stmt
    if pyStrip formatted = "" then
      runStmts fmt execF db (i + 1) rest st
    else
      match execF i with
      | .resultSet cols rows =>
        runStmts fmt execF db (i + 1) rest
          { st with
            results := st.results ++ [.ok i cols rows]
            successful := st.successful + 1
            rows := st.rows + rows.length
            log := st.log ++ [⟨db, i, true, some (rows.length : Int), none⟩]
            trace := st.trace ++ [.execStmt db i formatted]
            progress := st.progress ++
              [.rowCountMsg (toString rows.length ++ " rows from Query " ++
                toString i ++ " on " ++ db)] }
      | .nonQuery rowcount =>
        runStmts fmt execF db (i + 1) rest
          { st with
            results := st.results ++ [.okNonQuery i rowcount]
            successful := st.successful + 1
            log := st.log ++ [⟨db, i, true, some rowcount, none⟩]
            trace := st.trace ++ [.execStmt db i formatted] }
      | .sqlError msg =>
        runStmts fmt execF db (i + 1) rest
          { st with
            results := st.results ++ [.err i msg]
            failed := st.failed + 1
            log := st.log ++ [⟨db, i, false, none, some msg⟩]
            trace := st.trace ++ [.execStmt db i formatted] }
      | .otherError msg =>
        { st with
          trace := st.trace ++ [.execStmt db i formatted]
          aborted := some msg }

/-- The `("status", f"Querying {db}... ({db_index + 1}/{len(databases)})")`
text. -/
def statusText (db : String) (idx n : Nat) : String :=
  "Querying " ++ db ++ "... (" ++ toString (idx + 1) ++ "/" ++ toString n ++ ")"

/-- Observable output of `execute_query` for one database of the list. -/
structure DbRun where
  /-- status / row-count messages put while this database is processed -/
  progress : List Msg
  /-- the entry appended to `all_results` (its report block) -/
  block : Block
  /-- driver events for this database -/
  trace : List Ev
  /-- entries appended to `current_query_log['results']` -/
  log : List LogEntry
  /-- contribution to `successful_executions` -/
  successful : Nat
  /-- contribution to `failed_executions` -/
  failed : Nat
  /-- contribution to `total_rows` -/
  rows : Nat

/-- One iteration of the `for db_index, db in enumerate(databases)` loop
(source lines 35–152): put the status message, attempt the connection,
run the statement loop, commit and build the database summary on the
normal path, or build the matching error block; the context manager of
`get_connection` closes any opened connection on every path. -/
def perDbRun (fmt : String → String) (stmts : List String) (env : Env)
    (n idx : Nat) (db : String) : DbRun :=
  let statusMsg := Msg.status (statusText db idx n)
  match env db with
  | .connOk execF =>
    let st := runStmts fmt execF db 1 stmts
      ⟨[], 0, 0, 0, [], [.getConnCall db, .connOpen db], [], none⟩
    match st.aborted with
    | none =>
      { progress := statusMsg :: st.progress
        block := .dbCombined ⟨db, st.successful, st.failed, st.rows, stmts.length⟩
          st.results
        trace := st.trace ++ [.commit db, .connClose db]
        log := st.log
        successful := st.successful, failed := st.failed, rows := st.rows }
    | some msg =>
      { progress := statusMsg :: st.progress
        block := .unexpectedError db msg
        trace := st.trace ++ [.connClose db]
        log := st.log ++ [⟨db, 0, false, none, some msg⟩]
        successful := st.successful, failed := st.failed + stmts.length
        rows := st.rows }
  | .connOpError msg =>
      { progress := [statusMsg], block := .connError db msg
        trace := [.getConnCall db]
        log := [⟨db, 0, false, none, some msg⟩]
        successful := 0, failed := stmts.length, rows := 0 }
  | .connOtherError msg =>
      { progress := [statusMsg], block := .unexpectedError db msg
        trace := [.getConnCall db]
        log := [⟨db, 0, false, none, some msg⟩]
        successful := 0, failed := stmts.length, rows := 0 }

/-! ## `execute_query`: result reordering and message assembly -/

/-- Insert into a list sorted by strictly descending `db_index`:
`all_results.sort(key=lambda x: x[2], reverse=True)` (a stable sort by
key, descending). -/
def insertDesc (x : Nat × Block) : List (Nat × Block) → List (Nat × Block)
  | [] => [x]
  | y :: ys => if y.1 < x.1 then x :: y :: ys else y :: insertDesc x ys

/-- Stable sort of `all_results` by `db_index`, descending. -/
def sortDescBy (l : List (Nat × Block)) : List (Nat × Block) :=
  l.foldr insertDesc []

/-- Everything `execute_query` makes observable: the message-queue
contents in order, the driver-event trace, and the final counters. -/
structure ExecOut where
  messages : List Msg
  trace : List Ev
  totalStatements : Nat
  successful : Nat
  failed : Nat
  totalRows : Nat
  log : List LogEntry

/-- `QueryExecutor.execute_query(query, databases, message_queue)`:
split the query, loop over the databases accumulating `all_results`,
then put the overall summary, the per-database blocks sorted by
`db_index` descending, and the five fixed closing messages. -/
def executeQuery (split : String → List String) (fmt : String → String)
    (env : Env) (query : String) (dbs : List String) : ExecOut :=
  let stmts := statements split query
  let runs := dbs.enum.map fun p => perDbRun fmt stmts env dbs.length p.1 p.2
  let successful := (runs.map (·.successful)).sum
  let failed := (runs.map (·.failed)).sum
  let totalRows := (runs.map (·.rows)).sum
  let logEntries := (runs.map (·.log)).flatten
  let allResults := dbs.enum.map fun p =>
    (p.1, (perDbRun fmt stmts env dbs.length p.1 p.2).block)
  let overall := Block.overall dbs.length stmts.length successful failed
    totalRows dbs
  { messages :=
      (runs.map (·.progress)).flatten ++ [.result overall] ++
        (sortDescBy allResults).map (fun p => .result p.2) ++
        [.execTimeMsg,
         .totalRowsMsg ("Total Rows Processed: " ++ fmtComma totalRows),
         .done "Query execution completed",
         .queryLogMsg logEntries,
         .enableLogButton]
    trace := (runs.map (·.trace)).flatten
    totalStatements := stmts.length
    successful := successful
    failed := failed
    totalRows := totalRows
    log := logEntries }

/-! ## `_format_query_results`: the data-table branch

`_format_query_results` has three return branches: no
`cursor.description` (non-query message), a result set with no rows
("No data rows to display."), and a result set with rows, which renders
a data table.  Only the last branch renders data rows; it is modelled
here string-for-string.  Python's float `scale_factor` arithmetic
(`int(w * scale_factor)`) is modelled with exact integer arithmetic:
`int(w * (100 - 3*n + 1) / sum)` is the floored quotient, and a negative
scale (when `3*n > 101`) makes every scaled width fall to the `max(5, ·)`
floor, which truncated `Nat` subtraction reproduces. -/

/-- `str(value) if value is not None else 'NULL'`. -/
def cellStr (c : Cell) : String :=
  match c with
  | some v => v
  | none => "NULL"

/-- Python `str.ljust`. -/
def pyLjust (s : String) (w : Nat) : String :=
  if s.length < w then s ++ String.mk (List.replicate (w - s.length) ' ') else s

/-- Python `s[:w]`. -/
def pyTake (s : String) (w : Nat) : String :=
  String.mk (s.toList.take w)

/-- The width scan for column `i`: start from the header width, widen to
the longest cell, cap at 25 (source lines 352–361). -/
def colWidthRaw (rows : List Row) (i : Nat) (name : String) : Nat :=
  min (rows.foldl (fun m row => max m (cellStr (row.getD i none)).length)
    name.length) 25

/-- `col_widths` after the proportional shrink when the table is wider
than `available_width = 100` (source lines 363–368). -/
def colWidths (cols : List String) (rows : List Row) : List Nat :=
  let raw := (cols.enum.map fun p => colWidthRaw rows p.1 p.2)
  let total := raw.sum + raw.length * 3 - 1
  if 100 < total then
    raw.map fun w => max 5 (w * (100 + 1 - raw.length * 3) / raw.sum)
  else raw

/-- One line of the data-table body:
`" │ ".join(value_str[:width].ljust(width) ...)`. -/
def renderRow (widths : List Nat) (row : Row) : String :=
  String.intercalate " │ "
    ((row.zip widths).map fun p => pyLjust (pyTake (cellStr p.1) p.2) p.2)

/-- `display_rows = rows[:100]  # Show first 100 rows max`. -/
def displayRows (rows : List Row) : List Row :=
  rows.take 100

/-- `truncation_note` (source line 391). -/
def truncationNote (rows : List Row) : String :=
  if 100 < rows.length then
    "\n[Note: Showing first 100 rows. Total rows: " ++ fmtComma rows.length ++ "]"
  else ""

/-- The pieces of the rendered data table. -/
structure ResultTable where
  statusLine : String
  header : String
  sep : String
  bodyLines : List String
  truncationNote : String

/-- The data-table branch of `_format_query_results` (source lines
344–405).  Its caller passes `row_count = len(rows)` when
`cursor.description` is set. -/
def formatQueryResults (cols : List String) (rows : List Row)
    (rowCount : Nat) : ResultTable :=
  let widths := colWidths cols rows
  { statusLine := "✅ Status: SUCCESS - " ++ fmtComma rowCount ++ " rows returned"
    header := String.intercalate " │ "
      ((cols.zip widths).map fun p => pyLjust (pyTake p.1 p.2) p.2)
    sep := String.intercalate "─┼─"
      (widths.map fun w => String.mk (List.replicate w '─'))
    bodyLines := (displayRows rows).map (renderRow widths)
    truncationNote := truncationNote rows }

/-- `True` exactly for `cursor.execute` events. -/
def Ev.isExec : Ev → Bool
  | .execStmt _ _ _ => true
  | _ => false

/-- The `cursor.execute` events that the statement loop produces for the
statement list `l`, numbering from `i`: one per statement whose
formatted text is non-blank. -/
def execEvs (fmt : String → String) (db : String) : Nat → List String → List Ev
  | _, [] => []
  | i, s :: rest =>
    if pyStrip (fmt s) = "" then execEvs fmt db (i + 1) rest
    else Ev.execStmt db i (fmt s) :: execEvs fmt db (i + 1) rest

/-! ## Concrete fixtures used to witness hypothesised theorems -/

/-- A splitter producing two fixed statements, standing in for
`sqlparse.split` on a two-statement script. -/
def split2 : String → List String := fun _ => ["SELECT 1", "SELECT 2"]

/-- The identity in place of `sqlparse.format`. -/
def fmtId : String → String := id

/-- An environment where every connection succeeds and every statement
is a non-query affecting one row. -/
def envOkNonQuery : Env := fun _ => .connOk fun _ => .nonQuery 1

/-- An environment where every connection attempt raises
`pyodbc.OperationalError`. -/
def envConnFail : Env := fun _ => .connOpError "down"

/-! ## Theorems -/

/-- C5: `contains_dangerous_sql` returns `True` iff the lowercased query
text contains at least one of the six substrings `"drop table"`,
`"drop database"`, `"truncate table"`, `"delete from"`, `"alter table"`,
`"update "`; detection is case-insensitive and purely substring-based. -/
theorem contains_dangerous_sql_iff (q : String) :
    containsDangerousSql q = true ↔
      (strContains (pyLower q) "drop table" = true ∨
       strContains (pyLower q) "drop database" = true ∨
       strContains (pyLower q) "truncate table" = true ∨
       strContains (pyLower q) "delete from" = true ∨
       strContains (pyLower q) "alter table" = true ∨
       strContains (pyLower q) "update " = true) := by
  simp [containsDangerousSql, destructiveKeywords, List.any_cons, List.any_nil,
    Bool.or_eq_true]

/-- C10: the success-rate computation of `_format_overall_summary` is
division-safe: when `successful + failed = 0` the rate is `0`, otherwise
it is `successful / total * 100`. -/
theorem success_rate_div_safe (s f : Nat) :
    successRate s f =
      if s + f = 0 then 0 else (s : ℚ) / ((s : ℚ) + (f : ℚ)) * 100 := by
  unfold successRate
  by_cases h : s + f = 0
  · simp [h]
  · have hpos : 0 < s + f := Nat.pos_of_ne_zero h
    simp only [hpos, if_true, h, if_false]
    push_cast
    ring

/-- One `add_to_history` call keeps the history within the bound. -/
lemma addToHistory_length_le (h : List HistEntry) (now : Nat) (q : String)
    (hb : h.length ≤ MAX_HISTORY_ENTRIES) :
    (addToHistory h now q).length ≤ MAX_HISTORY_ENTRIES := by
  unfold addToHistory
  split
  · simp only [List.length_drop, List.length_append, List.length_cons,
      List.length_nil]
    omega
  · rename_i hc
    simp only [List.length_append, List.length_cons, List.length_nil] at hc ⊢
    omega

/-- C9: starting from a history of at most `MAX_HISTORY_ENTRIES = 50`
entries, any sequence of `add_to_history` calls leaves at most 50
entries; an addition that would exceed the bound discards exactly the
oldest entry, and an addition under the bound just appends, so the
surviving entries keep their insertion order. -/
theorem add_to_history_bound (h : List HistEntry) (calls : List (Nat × String))
    (hb : h.length ≤ MAX_HISTORY_ENTRIES) :
    (calls.foldl (fun acc c => addToHistory acc c.1 c.2) h).length ≤
      MAX_HISTORY_ENTRIES ∧
    (∀ now q, h.length = MAX_HISTORY_ENTRIES →
      addToHistory h now q = h.drop 1 ++ [(now, q)]) ∧
    (∀ now q, h.length < MAX_HISTORY_ENTRIES →
      addToHistory h now q = h ++ [(now, q)]) := by
  refine ⟨?_, ?_, ?_⟩
  · induction calls generalizing h with
    | nil => exact hb
    | cons c cs ih =>
      exact ih (addToHistory h c.1 c.2) (addToHistory_length_le h c.1 c.2 hb)
  · intro now q hfull
    unfold addToHistory
    have hc : MAX_HISTORY_ENTRIES < (h ++ [(now, q)]).length := by
      simp [hfull]
    rw [if_pos hc]
    have h1 : 1 ≤ h.length := by
      rw [hfull]; exact Nat.one_le_iff_ne_zero.mpr (by decide)
    exact List.drop_append_of_le_length h1
  · intro now q hlt
    unfold addToHistory
    have hc : ¬ MAX_HISTORY_ENTRIES < (h ++ [(now, q)]).length := by
      simp only [List.length_append, List.length_cons, List.length_nil]
      omega
    rw [if_neg hc]

/-- C9 witness: instantiation at a full 50-entry history and one call. -/
theorem add_to_history_bound_witness :
    (([((1 : Nat), "b")].foldl (fun acc c => addToHistory acc c.1 c.2)
        (List.replicate 50 ((0 : Nat), "a"))).length ≤ MAX_HISTORY_ENTRIES ∧
      (∀ now q, (List.replicate 50 ((0 : Nat), "a")).length = MAX_HISTORY_ENTRIES →
        addToHistory (List.replicate 50 ((0 : Nat), "a")) now q =
          (List.replicate 50 ((0 : Nat), "a")).drop 1 ++ [(now, q)]) ∧
      (∀ now q, (List.replicate 50 ((0 : Nat), "a")).length < MAX_HISTORY_ENTRIES →
        addToHistory (List.replicate 50 ((0 : Nat), "a")) now q =
          List.replicate 50 ((0 : Nat), "a") ++ [(now, q)])) :=
  add_to_history_bound (List.replicate 50 ((0 : Nat), "a")) [((1 : Nat), "b")]
    (by simp [MAX_HISTORY_ENTRIES])

/-- C6: a query flagged as dangerous whose confirmation is declined makes
`start_query_thread` return unchanged: the executor thread is not
launched, the query is not added to the history, and `query_running` is
untouched. -/
theorem dangerous_query_declined_noop (hasConnector : Bool)
    (selectedDbs : List String) (query : String) (now : Nat) (st : AppState)
    (hd : containsDangerousSql query = true) :
    startQueryThread hasConnector selectedDbs query false now st = (st, false) := by
  unfold startQueryThread
  by_cases h1 : hasConnector
  · by_cases h2 : st.queryRunning
    · simp [h1, h2]
    · by_cases h3 : selectedDbs.isEmpty
      · simp [h1, h2, h3]
      · by_cases h4 : query = ""
        · simp [h1, h2, h3, h4]
        · simp [h1, h2, h3, h4, hd]
  · simp [h1]

/-- C6 witness: a declined `DROP TABLE` statement changes nothing. -/
theorem dangerous_query_declined_noop_witness :
    containsDangerousSql "DROP TABLE t" = true ∧
      startQueryThread true ["db1"] "DROP TABLE t" false 7
        ⟨false, [((0 : Nat), "old")]⟩ = (⟨false, [((0 : Nat), "old")]⟩, false) :=
  ⟨by decide,
   dangerous_query_declined_noop true ["db1"] "DROP TABLE t" 7
     ⟨false, [((0 : Nat), "old")]⟩ (by decide)⟩

/-- C8: the data table of `_format_query_results` renders at most 100
data rows (`rows[:100]`); when more than 100 rows were fetched a
truncation note stating the total row count is appended, and otherwise
the note is empty; the status line still reports the full fetched row
count (`row_count = len(rows)` at the call site). -/
theorem display_row_cap (cols : List String) (rows : List Row) :
    (formatQueryResults cols rows rows.length).bodyLines.length =
      min rows.length 100 ∧
    (100 < rows.length →
      (formatQueryResults cols rows rows.length).truncationNote =
        "\n[Note: Showing first 100 rows. Total rows: " ++
          fmtComma rows.length ++ "]") ∧
    (rows.length ≤ 100 →
      (formatQueryResults cols rows rows.length).truncationNote = "") ∧
    (formatQueryResults cols rows rows.length).statusLine =
      "✅ Status: SUCCESS - " ++ fmtComma rows.length ++ " rows returned" := by
  refine ⟨?_, ?_, ?_, rfl⟩
  · simp only [formatQueryResults, displayRows, List.length_map,
      List.length_take]
    exact Nat.min_comm 100 rows.length
  · intro hgt
    simp only [formatQueryResults, truncationNote, hgt, if_true]
  · intro hle
    have hng : ¬ 100 < rows.length := Nat.not_lt.mpr hle
    simp only [formatQueryResults, truncationNote, hng, if_false]

/-- C8 witness: a 101-row result set is truncated with the note, while
the status line reports 101 rows. -/
theorem display_row_cap_witness :
    (formatQueryResults ["c"] (List.replicate 101 [some "a"])
        (List.replicate 101 ([some "a"] : Row)).length).bodyLines.length =
      min (List.replicate 101 ([some "a"] : Row)).length 100 ∧
    (formatQueryResults ["c"] (List.replicate 101 [some "a"])
        (List.replicate 101 ([some "a"] : Row)).length).truncationNote =
      "\n[Note: Showing first 100 rows. Total rows: " ++
        fmtComma (List.replicate 101 ([some "a"] : Row)).length ++ "]" ∧
    (formatQueryResults ["c"] (List.replicate 101 [some "a"])
        (List.replicate 101 ([some "a"] : Row)).length).statusLine =
      "✅ Status: SUCCESS - " ++
        fmtComma (List.replicate 101 ([some "a"] : Row)).length ++
        " rows returned" :=
  ⟨(display_row_cap ["c"] (List.replicate 101 [some "a"])).1,
   (display_row_cap ["c"] (List.replicate 101 [some "a"])).2.1 (by simp),
   (display_row_cap ["c"] (List.replicate 101 [some "a"])).2.2.2⟩

/-! ### Step equations of the statement loop -/

/-- A statement whose formatted text strips to empty is skipped. -/
lemma runStmts_cons_blank {fmt ex db i s rest st}
    (hb : pyStrip (fmt s) = "") :
    runStmts fmt ex db i (s :: rest) st = runStmts fmt ex db (i + 1) rest st := by
  simp only [runStmts]
  rw [if_pos hb]

/-- Step equation for a statement returning a result set. -/
lemma runStmts_cons_resultSet {fmt ex db i s rest st cols rows}
    (hb : ¬ pyStrip (fmt s) = "") (hex : ex i = StmtOutcome.resultSet cols rows) :
    runStmts fmt ex db i (s :: rest) st =
      runStmts fmt ex db (i + 1) rest
        { st with
          results := st.results ++ [.ok i cols rows]
          successful := st.successful + 1
          rows := st.rows + rows.length
          log := st.log ++ [⟨db, i, true, some (rows.length : Int), none⟩]
          trace := st.trace ++ [.execStmt db i (fmt s)]
          progress := st.progress ++
            [.rowCountMsg (toString rows.length ++ " rows from Query " ++
              toString i ++ " on " ++ db)] } := by
  simp only [runStmts]
  rw [if_neg hb, hex]

/-- Step equation for a successful non-query statement. -/
lemma runStmts_cons_nonQuery {fmt ex db i s rest st rc}
    (hb : ¬ pyStrip (fmt s) = "") (hex : ex i = StmtOutcome.nonQuery rc) :
    runStmts fmt ex db i (s :: rest) st =
      runStmts fmt ex db (i + 1) rest
        { st with
          results := st.results ++ [.okNonQuery i rc]
          successful := st.successful + 1
          log := st.log ++ [⟨db, i, true, some rc, none⟩]
          trace := st.trace ++ [.execStmt db i (fmt s)] } := by
  simp only [runStmts]
  rw [if_neg hb, hex]

/-- Step equation for a statement failing with `pyodbc.Error`: the
failure is recorded once and the loop continues with the next
statement. -/
lemma runStmts_cons_sqlError {fmt ex db i s rest st msg}
    (hb : ¬ pyStrip (fmt s) = "") (hex : ex i = StmtOutcome.sqlError msg) :
    runStmts fmt ex db i (s :: rest) st =
      runStmts fmt ex db (i + 1) rest
        { st with
          results := st.results ++ [.err i msg]
          failed := st.failed + 1
          log := st.log ++ [⟨db, i, false, none, some msg⟩]
          trace := st.trace ++ [.execStmt db i (fmt s)] } := by
  simp only [runStmts]
  rw [if_neg hb, hex]

/-- Step equation for a non-`pyodbc.Error` exception: the loop stops with
`aborted` set. -/
lemma runStmts_cons_otherError {fmt ex db i s rest st msg}
    (hb : ¬ pyStrip (fmt s) = "") (hex : ex i = StmtOutcome.otherError msg) :
    runStmts fmt ex db i (s :: rest) st =
      { st with
        trace := st.trace ++ [.execStmt db i (fmt s)]
        aborted := some msg } := by
  simp only [runStmts]
  rw [if_neg hb, hex]

/-- The statement loop only ever appends `cursor.execute` events to the
trace and row-count messages to the progress output. -/
lemma runStmts_shape (fmt : String → String) (ex : Nat → StmtOutcome)
    (db : String) :
    ∀ (l : List String) (i : Nat) (st : StmtLoopState),
      ∃ evs ms, (runStmts fmt ex db i l st).trace = st.trace ++ evs ∧
        (∀ e ∈ evs, e.isExec = true) ∧
        (runStmts fmt ex db i l st).progress = st.progress ++ ms ∧
        (∀ m ∈ ms, m.isProgress = true) := by
  intro l
  induction l with
  | nil =>
    intro i st
    exact ⟨[], [], by simp [runStmts], by simp, by simp [runStmts], by simp⟩
  | cons s rest ih =>
    intro i st
    by_cases hb : pyStrip (fmt s) = ""
    · rw [runStmts_cons_blank hb]
      exact ih (i + 1) st
    · cases hex : ex i with
      | resultSet cols rows =>
        rw [runStmts_cons_resultSet hb hex]
        obtain ⟨evs, ms, h1, h2, h3, h4⟩ := ih (i + 1)
          { st with
            results := st.results ++ [.ok i cols rows]
            successful := st.successful + 1
            rows := st.rows + rows.length
            log := st.log ++ [⟨db, i, true, some (rows.length : Int), none⟩]
            trace := st.trace ++ [.execStmt db i (fmt s)]
            progress := st.progress ++
              [.rowCountMsg (toString rows.length ++ " rows from Query " ++
                toString i ++ " on " ++ db)] }
        refine ⟨Ev.execStmt db i (fmt s) :: evs,
          Msg.rowCountMsg (toString rows.length ++ " rows from Query " ++
            toString i ++ " on " ++ db) :: ms, ?_, ?_, ?_, ?_⟩
        · rw [h1]; simp
        · intro e he
          rcases List.mem_cons.mp he with rfl | h
          · rfl
          · exact h2 e h
        · rw [h3]; simp
        · intro m hm
          rcases List.mem_cons.mp hm with rfl | h
          · rfl
          · exact h4 m h
      | nonQuery rc =>
        rw [runStmts_cons_nonQuery hb hex]
        obtain ⟨evs, ms, h1, h2, h3, h4⟩ := ih (i + 1)
          { st with
            results := st.results ++ [.okNonQuery i rc]
            successful := st.successful + 1
            log := st.log ++ [⟨db, i, true, some rc, none⟩]
            trace := st.trace ++ [.execStmt db i (fmt s)] }
        refine ⟨Ev.execStmt db i (fmt s) :: evs, ms, ?_, ?_, ?_, ?_⟩
        · rw [h1]; simp
        · intro e he
          rcases List.mem_cons.mp he with rfl | h
          · rfl
          · exact h2 e h
        · rw [h3]
        · exact h4
      | sqlError msg =>
        rw [runStmts_cons_sqlError hb hex]
        obtain ⟨evs, ms, h1, h2, h3, h4⟩ := ih (i + 1)
          { st with
            results := st.results ++ [.err i msg]
            failed := st.failed + 1
            log := st.log ++ [⟨db, i, false, none, some msg⟩]
            trace := st.trace ++ [.execStmt db i (fmt s)] }
        refine ⟨Ev.execStmt db i (fmt s) :: evs, ms, ?_, ?_, ?_, ?_⟩
        · rw [h1]; simp
        · intro e he
          rcases List.mem_cons.mp he with rfl | h
          · rfl
          · exact h2 e h
        · rw [h3]
        · exact h4
      | otherError msg =>
        rw [runStmts_cons_otherError hb hex]
        exact ⟨[Ev.execStmt db i (fmt s)], [], by simp, by
          intro e he
          rcases List.mem_cons.mp he with rfl | h
          · rfl
          · simp at h, by simp, by simp⟩

/-- With no non-`pyodbc.Error` statement exception, the loop never
aborts and its trace appends exactly `execEvs`. -/
lemma runStmts_noabort (fmt : String → String) (ex : Nat → StmtOutcome)
    (db : String) (hex : ∀ i msg, ex i ≠ StmtOutcome.otherError msg) :
    ∀ (l : List String) (i : Nat) (st : StmtLoopState),
      (runStmts fmt ex db i l st).aborted = st.aborted ∧
        (runStmts fmt ex db i l st).trace = st.trace ++ execEvs fmt db i l := by
  intro l
  induction l with
  | nil => intro i st; exact ⟨by simp [runStmts], by simp [runStmts, execEvs]⟩
  | cons s rest ih =>
    intro i st
    by_cases hb : pyStrip (fmt s) = ""
    · rw [runStmts_cons_blank hb]
      refine ⟨(ih (i + 1) st).1, ?_⟩
      rw [(ih (i + 1) st).2]
      simp [execEvs, hb]
    · cases hex2 : ex i with
      | resultSet cols rows =>
        rw [runStmts_cons_resultSet hb hex2]
        constructor
        · rw [(ih (i + 1) _).1]
        · rw [(ih (i + 1) _).2]
          simp [execEvs, hb]
      | nonQuery rc =>
        rw [runStmts_cons_nonQuery hb hex2]
        constructor
        · rw [(ih (i + 1) _).1]
        · rw [(ih (i + 1) _).2]
          simp [execEvs, hb]
      | sqlError msg =>
        rw [runStmts_cons_sqlError hb hex2]
        constructor
        · rw [(ih (i + 1) _).1]
        · rw [(ih (i + 1) _).2]
          simp [execEvs, hb]
      | otherError msg =>
        exact absurd hex2 (hex i msg)

/-- Normal path for one database: connection succeeds and no statement
raises outside `pyodbc.Error`.  The trace is open, the statement
executions in order, one commit, one close; the report block is the
database summary combined with the per-statement results. -/
lemma perDbRun_connOk {env : Env} {db : String} {ex : Nat → StmtOutcome}
    (fmt : String → String) (stmts : List String) (n idx : Nat)
    (hconn : env db = ConnOutcome.connOk ex)
    (hex : ∀ i msg, ex i ≠ StmtOutcome.otherError msg) :
    (perDbRun fmt stmts env n idx db).trace =
      [Ev.getConnCall db, Ev.connOpen db] ++ execEvs fmt db 1 stmts ++
        [Ev.commit db, Ev.connClose db] ∧
    (perDbRun fmt stmts env n idx db).block =
      Block.dbCombined
        ⟨db,
         (runStmts fmt ex db 1 stmts
           ⟨[], 0, 0, 0, [], [.getConnCall db, .connOpen db], [], none⟩).successful,
         (runStmts fmt ex db 1 stmts
           ⟨[], 0, 0, 0, [], [.getConnCall db, .connOpen db], [], none⟩).failed,
         (runStmts fmt ex db 1 stmts
           ⟨[], 0, 0, 0, [], [.getConnCall db, .connOpen db], [], none⟩).rows,
         stmts.length⟩
        (runStmts fmt ex db 1 stmts
          ⟨[], 0, 0, 0, [], [.getConnCall db, .connOpen db], [], none⟩).results := by
  have hab := (runStmts_noabort fmt ex db hex stmts 1
    ⟨[], 0, 0, 0, [], [.getConnCall db, .connOpen db], [], none⟩).1
  have htr := (runStmts_noabort fmt ex db hex stmts 1
    ⟨[], 0, 0, 0, [], [.getConnCall db, .connOpen db], [], none⟩).2
  unfold perDbRun
  rw [hconn]
  simp only [hab]
  constructor
  · simp only [htr]
  · trivial

/-- Connection failure with `pyodbc.OperationalError`: the whole
database contributes one status message, a connection-error block, the
bare `get_connection` call, one log entry, and `len(statements)` failed
executions. -/
lemma perDbRun_connOpError {env : Env} {db msg}
    (fmt : String → String) (stmts : List String) (n idx : Nat)
    (hconn : env db = ConnOutcome.connOpError msg) :
    perDbRun fmt stmts env n idx db =
      ⟨[Msg.status (statusText db idx n)], .connError db msg, [.getConnCall db],
       [⟨db, 0, false, none, some msg⟩], 0, stmts.length, 0⟩ := by
  unfold perDbRun
  rw [hconn]

/-- Connection failure with any other exception. -/
lemma perDbRun_connOtherError {env : Env} {db msg}
    (fmt : String → String) (stmts : List String) (n idx : Nat)
    (hconn : env db = ConnOutcome.connOtherError msg) :
    perDbRun fmt stmts env n idx db =
      ⟨[Msg.status (statusText db idx n)], .unexpectedError db msg,
       [.getConnCall db], [⟨db, 0, false, none, some msg⟩], 0, stmts.length, 0⟩ := by
  unfold perDbRun
  rw [hconn]

/-- Every message a database iteration puts before the report is a
progress message (status or row count). -/
lemma perDbRun_progress (fmt : String → String) (stmts : List String)
    (env : Env) (n idx : Nat) (db : String) :
    ∀ m ∈ (perDbRun fmt stmts env n idx db).progress, m.isProgress = true := by
  unfold perDbRun
  cases hconn : env db with
  | connOk ex =>
    obtain ⟨evs, ms, h1, h2, h3, h4⟩ := runStmts_shape fmt ex db stmts 1
      ⟨[], 0, 0, 0, [], [.getConnCall db, .connOpen db], [], none⟩
    cases hab : (runStmts fmt ex db 1 stmts
        ⟨[], 0, 0, 0, [], [.getConnCall db, .connOpen db], [], none⟩).aborted with
    | none =>
      simp only [hab]
      intro m hm
      rcases List.mem_cons.mp hm with rfl | h
      · rfl
      · rw [h3] at h
        exact h4 m (by simpa using h)
    | some msg =>
      simp only [hab]
      intro m hm
      rcases List.mem_cons.mp hm with rfl | h
      · rfl
      · rw [h3] at h
        exact h4 m (by simpa using h)
  | connOpError msg =>
    intro m hm
    rcases List.mem_cons.mp hm with rfl | h
    · rfl
    · simp at h
  | connOtherError msg =>
    intro m hm
    rcases List.mem_cons.mp hm with rfl | h
    · rfl
    · simp at h

/-- The driver trace of `execute_query` is the concatenation of the
per-database traces, in list order. -/
lemma executeQuery_trace_flatten (split : String → List String)
    (fmt : String → String) (env : Env) (query : String) (dbs : List String) :
    (executeQuery split fmt env query dbs).trace =
      (dbs.enum.map fun p =>
        (perDbRun fmt (statements split query) env dbs.length p.1 p.2).trace).flatten := by
  unfold executeQuery
  simp only [List.map_map]
  rfl

/-- Inserting an element no larger than anything in the list lands at
the end. -/
lemma insertDesc_eq_append (x : Nat × Block) :
    ∀ l, (∀ y ∈ l, ¬ y.1 < x.1) → insertDesc x l = l ++ [x] := by
  intro l
  induction l with
  | nil => intro; rfl
  | cons y ys ih =>
    intro h
    unfold insertDesc
    rw [if_neg (h y (List.mem_cons_self y ys))]
    rw [ih fun z hz => h z (List.mem_cons_of_mem y hz)]
    rfl

/-- The descending stable sort of a list whose keys strictly increase is
its reverse: this is the `all_results.sort(key=..., reverse=True)` step
on the accumulated `(db, result, db_index)` triples. -/
lemma sortDescBy_eq_reverse :
    ∀ l : List (Nat × Block), l.Pairwise (fun a b => a.1 < b.1) →
      sortDescBy l = l.reverse := by
  intro l
  induction l with
  | nil => intro; rfl
  | cons a t ih =>
    intro h
    have h1 := List.pairwise_cons.mp h
    have : sortDescBy (a :: t) = insertDesc a (sortDescBy t) := rfl
    rw [this, ih h1.2, insertDesc_eq_append a t.reverse
      (fun y hy => Nat.lt_asymm (h1.1 y (List.mem_reverse.mp hy))),
      List.reverse_cons]

/-- The `db_index` keys of the enumerated database list strictly
increase. -/
lemma enum_keys_pairwise (dbs : List String) :
    dbs.enum.Pairwise (fun a b => a.1 < b.1) := by
  have h1 : List.Pairwise (· < ·) (dbs.enum.map Prod.fst) := by
    rw [List.enum_map_fst]
    exact List.pairwise_lt_range _
  exact (List.pairwise_map).mp h1

/-- If the loop did not abort, its trace appended exactly `execEvs`. -/
lemma runStmts_trace_of_aborted_none (fmt : String → String)
    (ex : Nat → StmtOutcome) (db : String) :
    ∀ (l : List String) (i : Nat) (st : StmtLoopState),
      (runStmts fmt ex db i l st).aborted = none →
        (runStmts fmt ex db i l st).trace = st.trace ++ execEvs fmt db i l := by
  intro l
  induction l with
  | nil => intro i st _; simp [runStmts, execEvs]
  | cons s rest ih =>
    intro i st hab
    by_cases hb : pyStrip (fmt s) = ""
    · rw [runStmts_cons_blank hb] at hab ⊢
      rw [ih (i + 1) st hab]
      simp [execEvs, hb]
    · cases hex : ex i with
      | resultSet cols rows =>
        rw [runStmts_cons_resultSet hb hex] at hab ⊢
        rw [ih (i + 1) _ hab]
        simp [execEvs, hb]
      | nonQuery rc =>
        rw [runStmts_cons_nonQuery hb hex] at hab ⊢
        rw [ih (i + 1) _ hab]
        simp [execEvs, hb]
      | sqlError msg =>
        rw [runStmts_cons_sqlError hb hex] at hab ⊢
        rw [ih (i + 1) _ hab]
        simp [execEvs, hb]
      | otherError msg =>
        rw [runStmts_cons_otherError hb hex] at hab
        simp at hab

/-- Everything in `execEvs` is an execution event. -/
lemma execEvs_isExec (fmt : String → String) (db : String) :
    ∀ (l : List String) (i : Nat), ∀ e ∈ execEvs fmt db i l, e.isExec = true := by
  intro l
  induction l with
  | nil => intro i e he; simp [execEvs] at he
  | cons s rest ih =>
    intro i e he
    by_cases hb : pyStrip (fmt s) = ""
    · rw [execEvs, if_pos hb] at he
      exact ih (i + 1) e he
    · rw [execEvs, if_neg hb] at he
      rcases List.mem_cons.mp he with rfl | h
      · rfl
      · exact ih (i + 1) e h

/-- With no blank-formatting statement, `execEvs` executes every
statement, in order, with its 1-based number. -/
lemma execEvs_eq_enumFrom_map (fmt : String → String) (db : String) :
    ∀ (l : List String) (i : Nat), (∀ s ∈ l, pyStrip (fmt s) ≠ "") →
      execEvs fmt db i l =
        (List.enumFrom i l).map fun p => Ev.execStmt db p.1 (fmt p.2) := by
  intro l
  induction l with
  | nil => intro i _; rfl
  | cons s rest ih =>
    intro i h
    rw [execEvs, if_neg (h s (List.mem_cons_self s rest))]
    rw [ih (i + 1) fun z hz => h z (List.mem_cons_of_mem s hz)]
    rfl

/-- A non-execution event is not among execution events. -/
lemma not_mem_of_all_exec {evs : List Ev} (h : ∀ e ∈ evs, e.isExec = true)
    {x : Ev} (hx : x.isExec = false) : x ∉ evs := by
  intro hm
  have := h x hm
  rw [hx] at this
  cases this

/-- Filtering distributes over flattening. -/
lemma filter_flatten_evs (p : Ev → Bool) :
    ∀ l : List (List Ev), l.flatten.filter p = (l.map (List.filter p)).flatten := by
  intro l
  induction l with
  | nil => rfl
  | cons x xs ih => simp [List.filter_append, ih]

/-- The split-and-strip comprehension equals stripping every segment and
keeping the non-empty results. -/
lemma filterMap_strip_eq (l : List String) :
    (l.filterMap fun stmt =>
      if pyStrip stmt = "" then none else some (pyStrip stmt)) =
      (l.map pyStrip).filter (fun s => s ≠ "") := by
  induction l with
  | nil => rfl
  | cons a t ih =>
    simp only [List.filterMap_cons, List.map_cons, List.filter_cons]
    by_cases h : pyStrip a = ""
    · simp [h, ih]
    · simp [h, ih]

/-- The second component of an enumerated entry is in the list. -/
lemma snd_mem_of_mem_enum {l : List String} {p : Nat × String}
    (hp : p ∈ l.enum) : p.2 ∈ l := by
  have := List.mem_map_of_mem Prod.snd hp
  rwa [List.enum_map_snd] at this

/-- C2: `execute_query` splits the SQL text into exactly the stripped,
non-whitespace segments of the split text, `total_statements` is the
length of that list, and (when every connection succeeds and no
statement raises outside `pyodbc.Error`, with formatting preserving
non-blankness) each statement is executed sequentially, in order,
against each selected database in the given list order. -/
theorem execute_query_statement_sequencing (split : String → List String)
    (fmt : String → String) (env : Env) (query : String) (dbs : List String)
    (hfmt : ∀ s ∈ statements split query, pyStrip (fmt s) ≠ "")
    (henv : ∀ db ∈ dbs, ∃ ex, env db = ConnOutcome.connOk ex ∧
      ∀ i msg, ex i ≠ StmtOutcome.otherError msg) :
    statements split query =
      ((split query).map pyStrip).filter (fun s => s ≠ "") ∧
    (executeQuery split fmt env query dbs).totalStatements =
      (statements split query).length ∧
    (executeQuery split fmt env query dbs).trace.filter Ev.isExec =
      (dbs.map fun db => (List.enumFrom 1 (statements split query)).map
        fun p => Ev.execStmt db p.1 (fmt p.2)).flatten := by
  refine ⟨filterMap_strip_eq (split query), rfl, ?_⟩
  rw [executeQuery_trace_flatten, filter_flatten_evs, List.map_map]
  have hmap : dbs.enum.map (List.filter Ev.isExec ∘ fun p =>
      (perDbRun fmt (statements split query) env dbs.length p.1 p.2).trace) =
      dbs.enum.map (fun p => (List.enumFrom 1 (statements split query)).map
        fun q => Ev.execStmt p.2 q.1 (fmt q.2)) := by
    apply List.map_congr_left
    intro p hp
    obtain ⟨ex, hconn, hex⟩ := henv p.2 (snd_mem_of_mem_enum hp)
    have htr := (perDbRun_connOk fmt (statements split query) dbs.length p.1
      hconn hex).1
    show List.filter Ev.isExec
      (perDbRun fmt (statements split query) env dbs.length p.1 p.2).trace = _
    rw [htr, List.filter_append, List.filter_append,
      List.filter_eq_self.mpr (execEvs_isExec fmt p.2 (statements split query) 1),
      execEvs_eq_enumFrom_map fmt p.2 _ 1 hfmt]
    simp [Ev.isExec]
  rw [hmap]
  congr 1
  calc dbs.enum.map (fun p => (List.enumFrom 1 (statements split query)).map
        fun q => Ev.execStmt p.2 q.1 (fmt q.2)) =
      (dbs.enum.map Prod.snd).map (fun db =>
        (List.enumFrom 1 (statements split query)).map
          fun q => Ev.execStmt db q.1 (fmt q.2)) := by
        rw [List.map_map]
        rfl
    _ = dbs.map (fun db => (List.enumFrom 1 (statements split query)).map
        fun q => Ev.execStmt db q.1 (fmt q.2)) := by rw [List.enum_map_snd]

/-- C2 witness: two databases, two non-query statements. -/
theorem execute_query_statement_sequencing_witness :
    (executeQuery split2 fmtId envOkNonQuery "q" ["a", "b"]).trace.filter
        Ev.isExec =
      (["a", "b"].map fun db => (List.enumFrom 1 (statements split2 "q")).map
        fun p => Ev.execStmt db p.1 (fmtId p.2)).flatten :=
  (execute_query_statement_sequencing split2 fmtId envOkNonQuery "q" ["a", "b"]
    (by decide)
    (fun db _ => ⟨fun _ => .nonQuery 1, rfl, by intro i msg; simp⟩)).2.2

/-- Case analysis of one database iteration's trace: either the
connection succeeded and the loop ran to completion (commit then close),
or it aborted (close, no commit), or the connection attempt failed
(only the `get_connection` call). -/
lemma perDbRun_trace_cases (fmt : String → String) (stmts : List String)
    (env : Env) (n idx : Nat) (db : String) :
    (∃ ex, env db = ConnOutcome.connOk ex ∧
      (((runStmts fmt ex db 1 stmts
          ⟨[], 0, 0, 0, [], [.getConnCall db, .connOpen db], [], none⟩).aborted =
            none ∧
        (perDbRun fmt stmts env n idx db).trace =
          [Ev.getConnCall db, Ev.connOpen db] ++ execEvs fmt db 1 stmts ++
            [Ev.commit db, Ev.connClose db]) ∨
       ∃ m, (runStmts fmt ex db 1 stmts
          ⟨[], 0, 0, 0, [], [.getConnCall db, .connOpen db], [], none⟩).aborted =
            some m ∧
        (perDbRun fmt stmts env n idx db).trace =
          (runStmts fmt ex db 1 stmts
            ⟨[], 0, 0, 0, [], [.getConnCall db, .connOpen db], [], none⟩).trace ++
            [Ev.connClose db])) ∨
    (perDbRun fmt stmts env n idx db).trace = [Ev.getConnCall db] := by
  cases hconn : env db with
  | connOk ex =>
    left
    refine ⟨ex, rfl, ?_⟩
    cases hab : (runStmts fmt ex db 1 stmts
        ⟨[], 0, 0, 0, [], [.getConnCall db, .connOpen db], [], none⟩).aborted with
    | none =>
      left
      refine ⟨rfl, ?_⟩
      unfold perDbRun
      rw [hconn]
      simp only [hab]
      rw [runStmts_trace_of_aborted_none fmt ex db stmts 1 _ hab]
    | some m =>
      right
      refine ⟨m, rfl, ?_⟩
      unfold perDbRun
      rw [hconn]
      simp only [hab]
  | connOpError msg =>
    right
    rw [perDbRun_connOpError fmt stmts n idx hconn]
  | connOtherError msg =>
    right
    rw [perDbRun_connOtherError fmt stmts n idx hconn]

/-- A commit event never occurs among the open/execute prefix of a
database segment. -/
lemma commit_not_mem_prefix (fmt : String → String) (db : String)
    (stmts : List String) :
    Ev.commit db ∉
      ([Ev.getConnCall db, Ev.connOpen db] ++ execEvs fmt db 1 stmts) := by
  intro h
  rcases List.mem_append.mp h with h | h
  · simp at h
  · exact absurd h (not_mem_of_all_exec (execEvs_isExec fmt db stmts 1) rfl)

/-- C3: per database, `execute_query` issues at most one commit, a commit
happens only at the end of the segment after every executed statement,
and no commit is issued when the connection attempt failed.  The full
trace is the concatenation of the per-database segments. -/
theorem commit_per_database (split : String → List String)
    (fmt : String → String) (env : Env) (query : String) (dbs : List String) :
    (executeQuery split fmt env query dbs).trace =
      (dbs.enum.map fun p =>
        (perDbRun fmt (statements split query) env dbs.length p.1
          p.2).trace).flatten ∧
    (∀ stmts n idx db,
      ((perDbRun fmt stmts env n idx db).trace.count (Ev.commit db)) ≤ 1) ∧
    (∀ stmts n idx db, Ev.commit db ∈ (perDbRun fmt stmts env n idx db).trace →
      (perDbRun fmt stmts env n idx db).trace =
        [Ev.getConnCall db, Ev.connOpen db] ++ execEvs fmt db 1 stmts ++
          [Ev.commit db, Ev.connClose db]) ∧
    (∀ stmts n idx db msg, env db = ConnOutcome.connOpError msg →
      Ev.commit db ∉ (perDbRun fmt stmts env n idx db).trace) := by
  refine ⟨executeQuery_trace_flatten split fmt env query dbs, ?_, ?_, ?_⟩
  · intro stmts n idx db
    rcases perDbRun_trace_cases fmt stmts env n idx db with
      ⟨ex, _, ⟨_, htr⟩ | ⟨m, _, htr⟩⟩ | htr
    · rw [htr]
      have h0 : Ev.commit db ∉
          ([Ev.getConnCall db, Ev.connOpen db] ++ execEvs fmt db 1 stmts) :=
        commit_not_mem_prefix fmt db stmts
      rw [show [Ev.getConnCall db, Ev.connOpen db] ++ execEvs fmt db 1 stmts ++
          [Ev.commit db, Ev.connClose db] =
          ([Ev.getConnCall db, Ev.connOpen db] ++ execEvs fmt db 1 stmts) ++
          [Ev.commit db, Ev.connClose db] by simp]
      rw [List.count_append, List.count_eq_zero.mpr h0]
      simp [List.count_cons, List.count_nil]
    · rw [htr]
      obtain ⟨evs, ms, h1, h2, _, _⟩ := runStmts_shape fmt ex db stmts 1
        ⟨[], 0, 0, 0, [], [.getConnCall db, .connOpen db], [], none⟩
      rw [List.count_append, h1, List.count_append]
      have hevs : Ev.commit db ∉ evs := not_mem_of_all_exec h2 rfl
      rw [List.count_eq_zero.mpr hevs]
      simp [List.count_cons, List.count_nil]
    · rw [htr]
      simp [List.count_cons, List.count_nil]
  · intro stmts n idx db hmem
    rcases perDbRun_trace_cases fmt stmts env n idx db with
      ⟨ex, _, ⟨_, htr⟩ | ⟨m, _, htr⟩⟩ | htr
    · exact htr
    · exfalso
      rw [htr] at hmem
      obtain ⟨evs, ms, h1, h2, _, _⟩ := runStmts_shape fmt ex db stmts 1
        ⟨[], 0, 0, 0, [], [.getConnCall db, .connOpen db], [], none⟩
      rw [h1] at hmem
      rcases List.mem_append.mp hmem with h | h
      · rcases List.mem_append.mp h with h | h
        · simp at h
        · exact absurd h (not_mem_of_all_exec h2 rfl)
      · simp at h
    · rw [htr] at hmem
      simp at hmem
  · intro stmts n idx db msg hconn
    rw [perDbRun_connOpError fmt stmts n idx hconn]
    simp

/-- C3 witness: a failed connection issues no commit. -/
theorem commit_per_database_witness :
    envConnFail "a" = ConnOutcome.connOpError "down" ∧
      Ev.commit "a" ∉
        (perDbRun fmtId (statements split2 "q") envConnFail 1 0 "a").trace :=
  ⟨rfl,
   (commit_per_database split2 fmtId envConnFail "q" ["a"]).2.2.2
     (statements split2 "q") 1 0 "a" "down" rfl⟩

/-- C4: failure handling is retry-free and non-aborting: a statement
failing with `pyodbc.Error` is recorded exactly once (failed count +1)
and the loop moves on to the following statements without re-attempting
it; a failed connection counts all statements as failed in one step
(`failed_executions += len(statements)`), and execution still visits
every database of the list in order. -/
theorem failure_handling_retry_free (split : String → List String)
    (fmt : String → String) (env : Env) (query : String) (dbs : List String) :
    (∀ (ex : Nat → StmtOutcome) (db : String) (i : Nat) (s : String)
        (rest : List String) (st : StmtLoopState) (msg : String),
      ¬ pyStrip (fmt s) = "" → ex i = StmtOutcome.sqlError msg →
      runStmts fmt ex db i (s :: rest) st =
        runStmts fmt ex db (i + 1) rest
          { st with
            results := st.results ++ [.err i msg]
            failed := st.failed + 1
            log := st.log ++ [⟨db, i, false, none, some msg⟩]
            trace := st.trace ++ [.execStmt db i (fmt s)] }) ∧
    (∀ stmts n idx db msg, env db = ConnOutcome.connOpError msg →
      (perDbRun fmt stmts env n idx db).failed = stmts.length ∧
      (perDbRun fmt stmts env n idx db).successful = 0) ∧
    (executeQuery split fmt env query dbs).trace =
      (dbs.enum.map fun p =>
        (perDbRun fmt (statements split query) env dbs.length p.1
          p.2).trace).flatten := by
  refine ⟨?_, ?_, executeQuery_trace_flatten split fmt env query dbs⟩
  · intro ex db i s rest st msg hb hex
    exact runStmts_cons_sqlError hb hex
  · intro stmts n idx db msg hconn
    rw [perDbRun_connOpError fmt stmts n idx hconn]
    exact ⟨rfl, rfl⟩

/-- C4 witness: one failing statement is recorded once and the loop
continues; a failed connection marks the whole batch failed. -/
theorem failure_handling_retry_free_witness :
    (runStmts fmtId (fun _ => StmtOutcome.sqlError "e") "a" 1 ["SELECT 1"]
        ⟨[], 0, 0, 0, [], [], [], none⟩ =
      runStmts fmtId (fun _ => StmtOutcome.sqlError "e") "a" 2 []
        ⟨[.err 1 "e"], 0, 1, 0, [⟨"a", 1, false, none, some "e"⟩],
         [.execStmt "a" 1 (fmtId "SELECT 1")], [], none⟩) ∧
    ((perDbRun fmtId (statements split2 "q") envConnFail 1 0 "a").failed =
        (statements split2 "q").length ∧
      (perDbRun fmtId (statements split2 "q") envConnFail 1 0 "a").successful =
        0) :=
  ⟨(failure_handling_retry_free split2 fmtId envConnFail "q" ["a"]).1
      (fun _ => StmtOutcome.sqlError "e") "a" 1 "SELECT 1" []
      ⟨[], 0, 0, 0, [], [], [], none⟩ "e" (by decide) rfl,
   (failure_handling_retry_free split2 fmtId envConnFail "q" ["a"]).2.1
      (statements split2 "q") 1 0 "a" "down" rfl⟩

/-- C7: connections are neither pooled nor reused: every database of
the list gets exactly one `get_connection` call, that call opens its
segment, and whenever a connection was opened the segment ends with its
close — including on error — before the next database's events begin
(the full trace being the in-order concatenation of the segments). -/
theorem connection_lifecycle (split : String → List String)
    (fmt : String → String) (env : Env) (query : String) (dbs : List String) :
    (executeQuery split fmt env query dbs).trace =
      (dbs.enum.map fun p =>
        (perDbRun fmt (statements split query) env dbs.length p.1
          p.2).trace).flatten ∧
    (∀ stmts n idx db,
      ((perDbRun fmt stmts env n idx db).trace.count (Ev.getConnCall db)) = 1) ∧
    (∀ stmts n idx db,
      (perDbRun fmt stmts env n idx db).trace.head? =
        some (Ev.getConnCall db)) ∧
    (∀ stmts n idx db, Ev.connOpen db ∈ (perDbRun fmt stmts env n idx db).trace →
      (perDbRun fmt stmts env n idx db).trace.getLast? =
        some (Ev.connClose db)) := by
  refine ⟨executeQuery_trace_flatten split fmt env query dbs, ?_, ?_, ?_⟩
  · intro stmts n idx db
    rcases perDbRun_trace_cases fmt stmts env n idx db with
      ⟨ex, _, ⟨_, htr⟩ | ⟨m, _, htr⟩⟩ | htr
    · rw [htr, List.count_append, List.count_append]
      have hee : Ev.getConnCall db ∉ execEvs fmt db 1 stmts :=
        not_mem_of_all_exec (execEvs_isExec fmt db stmts 1) rfl
      rw [List.count_eq_zero.mpr hee]
      simp [List.count_cons, List.count_nil]
    · obtain ⟨evs, ms, h1, h2, _, _⟩ := runStmts_shape fmt ex db stmts 1
        ⟨[], 0, 0, 0, [], [.getConnCall db, .connOpen db], [], none⟩
      rw [htr, h1, List.count_append, List.count_append]
      have hevs : Ev.getConnCall db ∉ evs := not_mem_of_all_exec h2 rfl
      rw [List.count_eq_zero.mpr hevs]
      simp [List.count_cons, List.count_nil]
    · rw [htr]
      simp [List.count_cons, List.count_nil]
  · intro stmts n idx db
    rcases perDbRun_trace_cases fmt stmts env n idx db with
      ⟨ex, _, ⟨_, htr⟩ | ⟨m, _, htr⟩⟩ | htr
    · rw [htr]; rfl
    · obtain ⟨evs, ms, h1, _, _, _⟩ := runStmts_shape fmt ex db stmts 1
        ⟨[], 0, 0, 0, [], [.getConnCall db, .connOpen db], [], none⟩
      rw [htr, h1]; rfl
    · rw [htr]; rfl
  · intro stmts n idx db hmem
    rcases perDbRun_trace_cases fmt stmts env n idx db with
      ⟨ex, _, ⟨_, htr⟩ | ⟨m, _, htr⟩⟩ | htr
    · rw [htr]
      rw [show ([Ev.getConnCall db, Ev.connOpen db] ++ execEvs fmt db 1 stmts) ++
          [Ev.commit db, Ev.connClose db] =
          (([Ev.getConnCall db, Ev.connOpen db] ++ execEvs fmt db 1 stmts) ++
            [Ev.commit db]) ++ [Ev.connClose db] by simp]
      exact List.getLast?_concat _
    · rw [htr]
      exact List.getLast?_concat _
    · rw [htr] at hmem
      simp at hmem

/-- C7 witness: on the normal path the segment's last event is the
connection close. -/
theorem connection_lifecycle_witness :
    (perDbRun fmtId (statements split2 "q") envOkNonQuery 1 0
        "a").trace.getLast? = some (Ev.connClose "a") :=
  (connection_lifecycle split2 fmtId envOkNonQuery "q" ["a"]).2.2.2
    (statements split2 "q") 1 0 "a" (by decide)

/-- C1: the report `execute_query` emits to the message channel is a
deterministic function of the inputs: after the progress messages come
the overall execution summary, then exactly one combined block per
selected database (on the normal path a database summary followed by
that database's per-statement results), then the total-execution-time,
total-rows, done, query-log and enable-log-button messages, in that
fixed order. -/
theorem execute_query_report_order (split : String → List String)
    (fmt : String → String) (env : Env) (query : String) (dbs : List String)
    (hne : dbs ≠ []) :
    ∃ progressPart : List Msg,
      (∀ m ∈ progressPart, m.isProgress = true) ∧
      (executeQuery split fmt env query dbs).messages =
        progressPart ++
        [Msg.result (Block.overall dbs.length
            (executeQuery split fmt env query dbs).totalStatements
            (executeQuery split fmt env query dbs).successful
            (executeQuery split fmt env query dbs).failed
            (executeQuery split fmt env query dbs).totalRows dbs)] ++
        ((dbs.enum.map fun p =>
            Msg.result (perDbRun fmt (statements split query) env dbs.length
              p.1 p.2).block).reverse) ++
        [Msg.execTimeMsg,
         Msg.totalRowsMsg ("Total Rows Processed: " ++
           fmtComma (executeQuery split fmt env query dbs).totalRows),
         Msg.done "Query execution completed",
         Msg.queryLogMsg (executeQuery split fmt env query dbs).log,
         Msg.enableLogButton] ∧
      (dbs.enum.map fun p =>
          Msg.result (perDbRun fmt (statements split query) env dbs.length
            p.1 p.2).block).reverse.length = dbs.length ∧
      (∀ p ∈ dbs.enum, ∀ ex, env p.2 = ConnOutcome.connOk ex →
        (∀ i msg, ex i ≠ StmtOutcome.otherError msg) →
        ∃ summary results,
          (perDbRun fmt (statements split query) env dbs.length p.1 p.2).block =
            Block.dbCombined summary results ∧ summary.db = p.2) := by
  refine ⟨(dbs.enum.map fun p =>
      (perDbRun fmt (statements split query) env dbs.length p.1
        p.2).progress).flatten, ?_, ?_, ?_, ?_⟩
  · intro m hm
    obtain ⟨l', hl', hm'⟩ := List.mem_flatten.mp hm
    obtain ⟨p, _, rfl⟩ := List.mem_map.mp hl'
    exact perDbRun_progress fmt (statements split query) env dbs.length
      p.1 p.2 m hm'
  · have hpair : (dbs.enum.map fun p =>
        (p.1, (perDbRun fmt (statements split query) env dbs.length p.1
          p.2).block)).Pairwise (fun a b => a.1 < b.1) :=
      List.pairwise_map.mpr (enum_keys_pairwise dbs)
    have hsort := sortDescBy_eq_reverse _ hpair
    simp only [executeQuery]
    rw [hsort]
    simp [List.map_map, List.map_reverse, Function.comp_def]
  · simp
  · intro p _ ex hconn hex
    exact ⟨_, _, (perDbRun_connOk fmt (statements split query) dbs.length p.1
      hconn hex).2, rfl⟩

/-- C1 witness: two databases with successful non-query statements. -/
theorem execute_query_report_order_witness :
    ∃ progressPart : List Msg,
      (∀ m ∈ progressPart, m.isProgress = true) ∧
      (executeQuery split2 fmtId envOkNonQuery "q" ["a", "b"]).messages =
        progressPart ++
        [Msg.result (Block.overall (["a", "b"] : List String).length
            (executeQuery split2 fmtId envOkNonQuery "q" ["a", "b"]).totalStatements
            (executeQuery split2 fmtId envOkNonQuery "q" ["a", "b"]).successful
            (executeQuery split2 fmtId envOkNonQuery "q" ["a", "b"]).failed
            (executeQuery split2 fmtId envOkNonQuery "q" ["a", "b"]).totalRows
            ["a", "b"])] ++
        (((["a", "b"] : List String).enum.map fun p =>
            Msg.result (perDbRun fmtId (statements split2 "q") envOkNonQuery
              (["a", "b"] : List String).length p.1 p.2).block).reverse) ++
        [Msg.execTimeMsg,
         Msg.totalRowsMsg ("Total Rows Processed: " ++
           fmtComma (executeQuery split2 fmtId envOkNonQuery "q"
             ["a", "b"]).totalRows),
         Msg.done "Query execution completed",
         Msg.queryLogMsg (executeQuery split2 fmtId envOkNonQuery "q"
           ["a", "b"]).log,
         Msg.enableLogButton] ∧
      ((["a", "b"] : List String).enum.map fun p =>
          Msg.result (perDbRun fmtId (statements split2 "q") envOkNonQuery
            (["a", "b"] : List String).length p.1 p.2).block).reverse.length =
        (["a", "b"] : List String).length ∧
      (∀ p ∈ (["a", "b"] : List String).enum, ∀ ex,
        envOkNonQuery p.2 = ConnOutcome.connOk ex →
        (∀ i msg, ex i ≠ StmtOutcome.otherError msg) →
        ∃ summary results,
          (perDbRun fmtId (statements split2 "q") envOkNonQuery
              (["a", "b"] : List String).length p.1 p.2).block =
            Block.dbCombined summary results ∧ summary.db = p.2) :=
  execute_query_report_order split2 fmtId envOkNonQuery "q" ["a", "b"]
    (by simp)

end Zanvar
